import Mathlib

/-!
Verification development for the heartbeat core of the repository
(`internal/heartbeat`: service loop, context manager, command protocol,
prompt builder, single-instance lock).

Shallow embedding conventions:
* Go strings are Lean `String` (char-level scanning is done on `String.data`).
* `time.Time` values are modelled as `Nat` instants; the formatted clock text
  that `time.Now().Format(...)` produces inside `BuildUserPrompt` is passed
  explicitly as a `String` parameter (`nowStr`), making the hidden clock read
  an explicit input of the model.
* Go `int` fields that the code only ever uses as non-negative counters
  (cycle numbers, `total_cycles`, pids) are modelled as `Nat`.
* File-system effects are explicit state passing over an `FS` record; fallible
  operations return `Except String _` mirroring the Go `error` returns.
* `encoding/json` is modelled by a JSON value type `JsonVal` together with a
  character-level parser covering the JSON subset the wire protocol uses
  (strings with simple escapes, integer numbers, booleans, null, arrays,
  objects); `map[string]interface{}` becomes an association list
  `List (String × JsonVal)` with last-binding-wins lookup, matching Go's
  decoding of duplicate keys.
-/

/-! ## Data model (internal/heartbeat/types.go) -/

/-- `Observation` from types.go: something the MCP has learned or noticed. -/
structure Observation where
  content : String
  timestamp : Nat
  cycle : Nat
deriving DecidableEq, Repr

/-- `Lesson` from types.go. -/
structure Lesson where
  content : String
  timestamp : Nat
  cycle : Nat
  confidence : String
deriving DecidableEq, Repr

/-- `Hypothesis` from types.go. -/
structure Hypothesis where
  content : String
  timestamp : Nat
  cycle : Nat
  status : String
  evidence : List String
deriving DecidableEq, Repr

/-- `Strategy` from types.go. -/
structure Strategy where
  name : String
  description : String
  timestamp : Nat
  cycle : Nat
  effectiveness : String
deriving DecidableEq, Repr

/-- `ContextMeta` from types.go. -/
structure ContextMeta where
  version : String
  createdAt : Nat
  updatedAt : Nat
  totalCycles : Nat
deriving DecidableEq, Repr

/-- `Context` from types.go: the MCP's self-managed knowledge base. -/
structure Context where
  observations : List Observation
  lessons : List Lesson
  hypotheses : List Hypothesis
  strategies : List Strategy
  metadata : ContextMeta
deriving DecidableEq, Repr

/-- `Goal` from types.go. -/
structure Goal where
  id : Nat
  title : String
  description : String
  priority : String
  status : String
  createdAt : Nat
  progress : List String
deriving DecidableEq, Repr

/-- `GoalsMeta` from types.go. -/
structure GoalsMeta where
  nextId : Nat
  updatedAt : Nat
deriving DecidableEq, Repr

/-- `Goals` from types.go. -/
structure Goals where
  goals : List Goal
  metadata : GoalsMeta
deriving DecidableEq, Repr

/-- A JSON value, modelling Go `interface{}` results of `encoding/json`
decoding. Numbers are restricted to integers, the only numeric shape the
protocol's theorems use. -/
inductive JsonVal where
  | str (s : String)
  | num (n : Int)
  | bool (b : Bool)
  | null
  | arr (xs : List JsonVal)
  | obj (fields : List (String × JsonVal))

/-- `MemoryCommand` from types.go: `Data map[string]interface{}` becomes an
association list; a `nil` map is the empty list. -/
structure MemoryCommand where
  command : String
  reason : String
  data : List (String × JsonVal)

/-! ## JSON text parsing (model of encoding/json unmarshalling)

`json.Unmarshal(b, &commands)` in part_004 is modelled in two stages: a
character-level parse of the JSON text into `JsonVal`, then a conversion of
the value into `List MemoryCommand` following Go's struct-decoding rules
(absent field → zero value, `null` → zero value, wrong type → error,
unknown fields ignored). -/

/-- JSON whitespace per RFC 8259 / encoding/json: space, tab, newline, CR. -/
def isJsonWs (c : Char) : Bool :=
  c = ' ' || c = '\t' || c = '\n' || c = '\r'

/-- Drop leading JSON whitespace. -/
def skipWs : List Char → List Char
  | [] => []
  | c :: cs => if isJsonWs c then skipWs cs else c :: cs

/-- Opening brace character (written by code point to keep it out of string
literals). -/
def lbraceC : Char := Char.ofNat 123

/-- Closing brace character. -/
def rbraceC : Char := Char.ofNat 125

/-- Decode a single-character JSON escape (the `\uXXXX` form is not needed by
the wire protocol and is rejected). -/
def escChar (c : Char) : Option Char :=
  if c = '"' then some '"'
  else if c = '\\' then some '\\'
  else if c = '/' then some '/'
  else if c = 'n' then some '\n'
  else if c = 't' then some '\t'
  else if c = 'r' then some '\r'
  else if c = 'b' then some (Char.ofNat 8)
  else if c = 'f' then some (Char.ofNat 12)
  else none

/-- Parse the body of a JSON string after the opening quote; returns the
decoded characters and the remainder after the closing quote. -/
def parseStringBody : List Char → Option (List Char × List Char)
  | [] => none
  | c :: rest =>
    if c = '"' then some ([], rest)
    else if c = '\\' then
      match rest with
      | [] => none
      | e :: rest2 =>
        match escChar e with
        | none => none
        | some ec => (parseStringBody rest2).map (fun p => (ec :: p.1, p.2))
    else (parseStringBody rest).map (fun p => (c :: p.1, p.2))

/-- Value of a digit character. -/
def digitVal (c : Char) : Nat := c.toNat - 48

/-- Parse a non-empty run of decimal digits. -/
def parseDigits (s : List Char) : Option (Nat × List Char) :=
  let ds := s.takeWhile (fun c => c.isDigit)
  if ds.isEmpty then none
  else some (ds.foldl (fun acc c => acc * 10 + digitVal c) 0, s.drop ds.length)

/-- Parse a JSON integer (optional minus sign followed by digits); fractional
and exponent forms are outside the modelled subset and rejected. -/
def parseNumber (s : List Char) : Option (JsonVal × List Char) :=
  match s with
  | '-' :: rest =>
    match parseDigits rest with
    | none => none
    | some (n, rest2) =>
      match rest2 with
      | '.' :: _ => none
      | 'e' :: _ => none
      | 'E' :: _ => none
      | _ => some (JsonVal.num (-(n : Int)), rest2)
  | _ =>
    match parseDigits s with
    | none => none
    | some (n, rest2) =>
      match rest2 with
      | '.' :: _ => none
      | 'e' :: _ => none
      | 'E' :: _ => none
      | _ => some (JsonVal.num (n : Int), rest2)

mutual

/-- Fuel-indexed recursive-descent parse of one JSON value. -/
def parseValue : Nat → List Char → Option (JsonVal × List Char)
  | 0, _ => none
  | Nat.succ fuel, s =>
    match skipWs s with
    | [] => none
    | c :: rest =>
      if c = '"' then
        (parseStringBody rest).map (fun p => (JsonVal.str (String.mk p.1), p.2))
      else if c = '[' then parseElems fuel rest true
      else if c = lbraceC then parseFields fuel rest true
      else if c = 't' then
        match rest with
        | 'r' :: 'u' :: 'e' :: rest2 => some (JsonVal.bool true, rest2)
        | _ => none
      else if c = 'f' then
        match rest with
        | 'a' :: 'l' :: 's' :: 'e' :: rest2 => some (JsonVal.bool false, rest2)
        | _ => none
      else if c = 'n' then
        match rest with
        | 'u' :: 'l' :: 'l' :: rest2 => some (JsonVal.null, rest2)
        | _ => none
      else parseNumber (c :: rest)

/-- Parse array elements after the opening bracket. `first` is true until the
first element has been consumed. -/
def parseElems : Nat → List Char → Bool → Option (JsonVal × List Char)
  | 0, _, _ => none
  | Nat.succ fuel, s, first =>
    let s1 := skipWs s
    match s1 with
    | ']' :: rest => if first then some (JsonVal.arr [], rest) else none
    | _ =>
      match parseValue fuel s1 with
      | none => none
      | some (v, s2) =>
        match skipWs s2 with
        | ',' :: s3 =>
          match parseElems fuel s3 false with
          | some (JsonVal.arr vs, s4) => some (JsonVal.arr (v :: vs), s4)
          | _ => none
        | ']' :: s3 => some (JsonVal.arr [v], s3)
        | _ => none

/-- Parse object fields after the opening brace. -/
def parseFields : Nat → List Char → Bool → Option (JsonVal × List Char)
  | 0, _, _ => none
  | Nat.succ fuel, s, first =>
    let s1 := skipWs s
    match s1 with
    | [] => none
    | c :: rest =>
      if c = rbraceC then
        if first then some (JsonVal.obj [], rest) else none
      else if c = '"' then
        match parseStringBody rest with
        | none => none
        | some (key, s2) =>
          match skipWs s2 with
          | ':' :: s3 =>
            match parseValue fuel s3 with
            | none => none
            | some (v, s4) =>
              match skipWs s4 with
              | ',' :: s5 =>
                match parseFields fuel s5 false with
                | some (JsonVal.obj fs, s6) =>
                  some (JsonVal.obj ((String.mk key, v) :: fs), s6)
                | _ => none
              | c2 :: s5 =>
                if c2 = rbraceC then
                  some (JsonVal.obj [(String.mk key, v)], s5)
                else none
              | _ => none
          | _ => none
      else none

end

/-- Lookup a field in a decoded JSON object; Go's decoder lets a later
duplicate key overwrite an earlier one, so the last binding wins. -/
def jfieldGet (fields : List (String × JsonVal)) (k : String) : Option JsonVal :=
  (fields.reverse.find? (fun p => p.1 == k)).map (fun p => p.2)

/-- Decode one array element into a `MemoryCommand`, following Go struct
decoding: a missing or `null` field keeps the zero value, a present field of
the wrong type is an unmarshalling error, unknown fields are ignored. -/
def decodeCommand (v : JsonVal) : Option MemoryCommand :=
  match v with
  | JsonVal.obj fields =>
    let getStr : String → Option String := fun k =>
      match jfieldGet fields k with
      | none => some ""
      | some (JsonVal.str s) => some s
      | some JsonVal.null => some ""
      | some _ => none
    match getStr "command" with
    | none => none
    | some cmd =>
      match getStr "reason" with
      | none => none
      | some reason =>
        match jfieldGet fields "data" with
        | none => some ⟨cmd, reason, []⟩
        | some (JsonVal.obj dataFields) => some ⟨cmd, reason, dataFields⟩
        | some JsonVal.null => some ⟨cmd, reason, []⟩
        | some _ => none
  | _ => none

/-- Decode the captured block text as a `[]MemoryCommand`, modelling
`json.Unmarshal(matches[1], &commands)`: exactly one JSON value followed by
nothing but whitespace, and the value must be an array of command objects. -/
def decodeCommands (cap : List Char) : Option (List MemoryCommand) :=
  match parseValue (2 * cap.length + 8) cap with
  | none => none
  | some (v, rest) =>
    if (skipWs rest).isEmpty then
      match v with
      | JsonVal.arr items => items.mapM decodeCommand
      | _ => none
    else none

/-! ## Command-block extraction (part_004 `parseMemoryCommands`)

The Go code runs
`regexp.MustCompile(`...MEMORY_COMMANDS...`).FindStringSubmatch(response)`
with the pattern `(?s)MEMORY_COMMANDS:\s*(\[.*?\](?:\s*\n|$))` and decodes
capture group 1. The model below reproduces RE2's leftmost-first semantics
for this concrete pattern: the match starts at the earliest position where
the whole pattern can match; `\s*` before `[` is effectively maximal (the
backtracked positions hold whitespace, never `[`); the lazy `.*?` stops at
the earliest `]` whose suffix satisfies `(?:\s*\n|$)`; that suffix group
greedily consumes whitespace up to and including the last newline of the
whitespace run, or consumes nothing at end of input. -/

/-- The fixed textual marker. -/
def memoryMarker : List Char := "MEMORY_COMMANDS:".data

/-- `\s` of RE2: space, tab, newline, form feed, carriage return. -/
def isRegexWs (c : Char) : Bool :=
  c = ' ' || c = '\t' || c = '\n' || c = Char.ofNat 12 || c = '\r'

/-- Number of characters consumed by `(?:\s*\n|$)` starting at position `q`,
or `none` when neither alternative matches there. -/
def tailMatchLen (s : List Char) (q : Nat) : Option Nat :=
  let rest := s.drop q
  let w := (rest.takeWhile isRegexWs).length
  match (List.range w).reverse.find? (fun m => rest.get? m = some '\n') with
  | some m => some (m + 1)
  | none => if rest.isEmpty then some 0 else none

/-- Attempt to match the whole pattern with the marker starting at position
`i`; returns the text of capture group 1 and the end position of the match. -/
def tryMatchAt (s : List Char) (i : Nat) : Option (List Char × Nat) :=
  if (s.drop i).take memoryMarker.length ≠ memoryMarker then none
  else
    let j := i + memoryMarker.length
    let k := j + ((s.drop j).takeWhile isRegexWs).length
    if s.get? k ≠ some '[' then none
    else
      match (List.range' (k + 1) (s.length - k)).find?
          (fun e => s.get? e = some ']' && (tailMatchLen s (e + 1)).isSome) with
      | none => none
      | some e =>
        match tailMatchLen s (e + 1) with
        | none => none
        | some tlen =>
          some ((s.drop k).take (e + 1 + tlen - k), e + 1 + tlen)

/-- Leftmost match of the pattern at or after position `i`. -/
def findBlockFrom (s : List Char) (i : Nat) : Option (List Char × Nat) :=
  (List.range' i (s.length + 1 - i)).findSome? (tryMatchAt s)

/-- Leftmost match of the pattern in the whole text: the block
`FindStringSubmatch` extracts. -/
def findFirstBlock (s : List Char) : Option (List Char × Nat) :=
  findBlockFrom s 0

/-- Count the non-overlapping pattern matches in the text, as
`FindAllStringSubmatch(response, -1)` would produce: repeated leftmost
matches, each search resuming at the end of the previous match. -/
def countBlocksAux : Nat → List Char → Nat → Nat
  | 0, _, _ => 0
  | Nat.succ fuel, s, i =>
    match findBlockFrom s i with
    | none => 0
    | some (_, e) => 1 + countBlocksAux fuel s (max e (i + 1))

/-- Number of command blocks the marker convention matches in the text. -/
def countBlocks (response : String) : Nat :=
  countBlocksAux (response.data.length + 1) response.data 0

/-- part_004 `parseMemoryCommands`: extract capture group 1 of the first
match and unmarshal it; no match, or an unmarshalling error, yields the
empty command list (Go returns `nil` in both cases). -/
def parseMemoryCommands (response : String) : List MemoryCommand :=
  match findFirstBlock response.data with
  | none => []
  | some (cap, _) =>
    match decodeCommands cap with
    | none => []
    | some commands => commands

/-! ## Knowledge store (internal/heartbeat/context.go)

The persisted context file is modelled by `FileState`: absent, present but
unreadable, present but not valid JSON, or present with a decodable
`Context` (the save/load JSON round trip is the identity on the record).
Backups are snapshots of the file; the activity log keeps the per-cycle
data (cycle number, command count) of each appended entry. -/

/-- State of the persisted `context.json`. -/
inductive FileState where
  | missing
  | unreadable
  | malformed
  | stored (c : Context)
deriving DecidableEq, Repr

/-- File-system state owned by the context manager. -/
structure FS where
  contextFile : FileState
  backups : List (String × FileState)
  log : List (Nat × Nat)
deriving DecidableEq, Repr

/-- `createEmptyContext` from context.go. -/
def createEmptyContext (now : Nat) : Context :=
  { observations := []
    lessons := []
    hypotheses := []
    strategies := []
    metadata := { version := "1.0", createdAt := now, updatedAt := now, totalCycles := 0 } }

/-- `LoadContext` from context.go: a missing file yields a fresh empty
context with no error; an unreadable or unparsable file is an error;
otherwise the stored record is returned. -/
def LoadContext : FileState → Nat → Except String Context
  | FileState.missing, now => Except.ok (createEmptyContext now)
  | FileState.unreadable, _ => Except.error "failed to read context file"
  | FileState.malformed, _ => Except.error "failed to parse context JSON"
  | FileState.stored c, _ => Except.ok c

/-- `SaveContext` from context.go: stamps `UpdatedAt`, then overwrites the
context file; `writeOk` models whether the `os.WriteFile` succeeds. -/
def SaveContext (fs : FS) (ctx : Context) (writeOk : Bool) (now : Nat) : Except String FS :=
  let ctx2 := { ctx with metadata := { ctx.metadata with updatedAt := now } }
  if writeOk then Except.ok { fs with contextFile := FileState.stored ctx2 }
  else Except.error "failed to write context file"

/-- `BackupContext` from context.go: nothing to do when the source file does
not exist; otherwise copy the file bytes into a timestamp/reason-tagged
backup. `copyOk` models success of the read-and-write copy. -/
def BackupContext (fs : FS) (reason : String) (copyOk : Bool) : FS × Except String Unit :=
  match fs.contextFile with
  | FileState.missing => (fs, Except.ok ())
  | f =>
    if copyOk then
      ({ fs with backups := fs.backups ++ [(reason, f)] }, Except.ok ())
    else (fs, Except.error "failed to write backup")

/-- `ExecuteMemoryCommand` from context.go: validates the required fields of
one command and appends the corresponding record; any validation failure is
an error that leaves the context unchanged. -/
def ExecuteMemoryCommand (ctx : Context) (cmd : MemoryCommand) (cycle : Nat) (now : Nat) :
    Except String Context :=
  if cmd.command = "add_observation" then
    match jfieldGet cmd.data "content" with
    | some (JsonVal.str content) =>
      Except.ok { ctx with observations :=
        ctx.observations ++ [{ content := content, timestamp := now, cycle := cycle }] }
    | _ => Except.error "observation content must be a string"
  else if cmd.command = "add_lesson" then
    match jfieldGet cmd.data "content" with
    | some (JsonVal.str content) =>
      let confidence :=
        match jfieldGet cmd.data "confidence" with
        | some (JsonVal.str s) => s
        | _ => ""
      Except.ok { ctx with lessons :=
        ctx.lessons ++ [{ content := content, timestamp := now, cycle := cycle,
                          confidence := confidence }] }
    | _ => Except.error "lesson content must be a string"
  else if cmd.command = "add_hypothesis" then
    match jfieldGet cmd.data "content" with
    | some (JsonVal.str content) =>
      Except.ok { ctx with hypotheses :=
        ctx.hypotheses ++ [{ content := content, timestamp := now, cycle := cycle,
                             status := "testing", evidence := [] }] }
    | _ => Except.error "hypothesis content must be a string"
  else if cmd.command = "add_strategy" then
    match jfieldGet cmd.data "name", jfieldGet cmd.data "description" with
    | some (JsonVal.str name), some (JsonVal.str desc) =>
      Except.ok { ctx with strategies :=
        ctx.strategies ++ [{ name := name, description := desc, timestamp := now,
                             cycle := cycle, effectiveness := "" }] }
    | _, _ => Except.error "strategy requires name and description strings"
  else if cmd.command = "prune_old" then
    Except.ok ctx
  else Except.error ("unknown memory command: " ++ cmd.command)

/-- Specification-side predicate: a command `ExecuteMemoryCommand` accepts
(known kind with its required fields present as strings). -/
def isValidCommand (cmd : MemoryCommand) : Bool :=
  let isStr : Option JsonVal → Bool := fun v =>
    match v with
    | some (JsonVal.str _) => true
    | _ => false
  if cmd.command = "add_observation" then isStr (jfieldGet cmd.data "content")
  else if cmd.command = "add_lesson" then isStr (jfieldGet cmd.data "content")
  else if cmd.command = "add_hypothesis" then isStr (jfieldGet cmd.data "content")
  else if cmd.command = "add_strategy" then
    isStr (jfieldGet cmd.data "name") && isStr (jfieldGet cmd.data "description")
  else if cmd.command = "prune_old" then true
  else false

/-- The command loop of `runCycle` (part_004 lines 193-199): execute each
command in order; a failing command is logged and skipped, the rest still
run. -/
def applyCommands (ctx : Context) (cmds : List MemoryCommand) (cycle : Nat) (now : Nat) :
    Context :=
  match cmds with
  | [] => ctx
  | c :: rest =>
    match ExecuteMemoryCommand ctx c cycle now with
    | Except.ok ctx2 => applyCommands ctx2 rest cycle now
    | Except.error _ => applyCommands ctx rest cycle now

/-! ## Prompt assembly (internal/heartbeat/prompt.go `BuildUserPrompt`)

The Go function is one `strings.Builder` pipeline; it is transcribed here as
the concatenation of one definition per `WriteString` group, in the same
order. The `**Time**` line is produced from `time.Now()` inside the Go
function; that clock read is the explicit `nowStr` parameter here. The
`mission` parameter of the Go function is never read (the mission paragraph
is a hard-coded literal). -/

/-- Cycle header and timestamp lines. -/
def promptHeader (cycleNumber : Nat) (nowStr : String) : String :=
  "# MCP Heartbeat Cycle " ++ toString cycleNumber ++ "\n\n"
    ++ "**Time**: " ++ nowStr ++ "\n\n"

/-- The hard-coded mission paragraph (prompt.go lines 39-40). -/
def missionSection : String :=
  "## Mission\n\n"
    ++ "Build companies and fortunes for Lennart and Tana. Pursue knowledge, prosperity, and the conquest of space.\n\n"

/-- One numbered entry of the Active Goals list; the Go loop indexes the
full goal list and `continue`s over non-active goals, so skipped goals leave
gaps in the numbering. -/
def goalEntry (i : Nat) (g : Goal) : String :=
  if g.status ≠ "active" then ""
  else
    toString (i + 1) ++ ". **[" ++ g.priority ++ "] " ++ g.title ++ "**\n"
      ++ "   " ++ g.description ++ "\n"
      ++ (match g.progress.getLast? with
          | some latest => "   *Latest: " ++ latest ++ "*\n"
          | none => "")
      ++ "\n"

/-- The Active Goals section. -/
def goalsSection (goals : Goals) : String :=
  "## Active Goals\n\n"
    ++ (if goals.goals.isEmpty then "*No active goals*\n\n"
        else String.join (goals.goals.enum.map (fun p => goalEntry p.1 p.2)))

/-- Header of the knowledge dump. -/
def knowledgeHeader : String := "## Your Knowledge\n\n"

/-- One observation line. -/
def obsLine (o : Observation) : String :=
  "- [Cycle " ++ toString o.cycle ++ "] " ++ o.content ++ "\n"

/-- Recent Observations section: the last five stored observations in
stored order (`start := len(obs) - 5`, clamped at zero). -/
def observationsSection (obs : List Observation) : String :=
  if obs.isEmpty then ""
  else
    "### Recent Observations\n\n"
      ++ String.join ((obs.drop (obs.length - 5)).map obsLine)
      ++ "\n"

/-- One lesson line. -/
def lessonLine (l : Lesson) : String :=
  "- " ++ l.content
    ++ (if l.confidence ≠ "" then " [" ++ l.confidence ++ " confidence]" else "")
    ++ "\n"

/-- Lessons Learned section: all lessons, unfiltered. -/
def lessonsSection (lessons : List Lesson) : String :=
  if lessons.isEmpty then ""
  else "### Lessons Learned\n\n" ++ String.join (lessons.map lessonLine) ++ "\n"

/-- One hypothesis line (only `testing` hypotheses are printed). -/
def hypothesisLine (h : Hypothesis) : String :=
  if h.status = "testing" then "- " ++ h.content ++ "\n" else ""

/-- Hypotheses Being Tested section. -/
def hypothesesSection (hyps : List Hypothesis) : String :=
  if hyps.isEmpty then ""
  else "### Hypotheses Being Tested\n\n" ++ String.join (hyps.map hypothesisLine) ++ "\n"

/-- One strategy line. -/
def strategyLine (st : Strategy) : String :=
  "- **" ++ st.name ++ "**: " ++ st.description
    ++ (if st.effectiveness ≠ "" then " - " ++ st.effectiveness else "")
    ++ "\n"

/-- Strategies section. -/
def strategiesSection (strats : List Strategy) : String :=
  if strats.isEmpty then ""
  else "### Strategies\n\n" ++ String.join (strats.map strategyLine) ++ "\n"

/-- Closing directive section (prompt.go lines 116-124). -/
def thisCycleSection : String :=
  "## This Cycle\n\n"
    ++ "What will you work on this cycle? Choose a goal, use tools to make progress, and update your memory.\n\n"
    ++ "Remember:\n"
    ++ "- Use websearch + fetch to research autonomously\n"
    ++ "- Check your observations before re-researching\n"
    ++ "- Update your memory with what you learn\n"
    ++ "- Work incrementally toward goals\n\n"
    ++ "Begin your autonomous work now.\n"

/-- `BuildUserPrompt` from prompt.go. `_mission` mirrors the Go parameter
`mission string`, which the function body never reads. -/
def BuildUserPrompt (ctx : Context) (goals : Goals) (_mission : String)
    (cycleNumber : Nat) (nowStr : String) : String :=
  promptHeader cycleNumber nowStr
    ++ missionSection
    ++ goalsSection goals
    ++ knowledgeHeader
    ++ observationsSection ctx.observations
    ++ lessonsSection ctx.lessons
    ++ hypothesesSection ctx.hypotheses
    ++ strategiesSection ctx.strategies
    ++ thisCycleSection

/-! ## The cycle scheduler (part_004 `Service.runCycle`) and the lock

`CycleEnv` packages one tick's external inputs: the results of the
goals/mission loads, whether session creation, the agent delegation, the
backup copy, the context save succeed, the agent's final response text, and
the clock. The prompt built for the cycle is handed to the agent and has no
further effect on the service state. -/

/-- Mutable service state that survives across cycles: the cycle counter
(`Service.cycleNumber`) and the file system. -/
structure ServiceState where
  cycleNumber : Nat
  fs : FS
deriving DecidableEq, Repr

/-- External inputs of one cycle. -/
structure CycleEnv where
  goals : Except String Goals
  mission : Except String String
  sessionOk : Bool
  agentOk : Bool
  response : String
  backupOk : Bool
  saveOk : Bool
  now : Nat
  nowStr : String

/-- `runCycle` from part_004 lines 126-231. The cycle counter is incremented
first and is not rolled back on failure; the backup error is discarded at
the call site (line 190); per-command errors are logged and skipped; the
save writes `TotalCycles := cycleNumber`. -/
def runCycle (s : ServiceState) (env : CycleEnv) : ServiceState × Except String Unit :=
  let n := s.cycleNumber + 1
  match LoadContext s.fs.contextFile env.now with
  | Except.error e => (⟨n, s.fs⟩, Except.error ("failed to load context: " ++ e))
  | Except.ok ctx =>
  match env.goals with
  | Except.error e => (⟨n, s.fs⟩, Except.error ("failed to load goals: " ++ e))
  | Except.ok goals =>
  match env.mission with
  | Except.error e => (⟨n, s.fs⟩, Except.error ("failed to load mission: " ++ e))
  | Except.ok mission =>
  let _userPrompt := BuildUserPrompt ctx goals mission n env.nowStr
  if env.sessionOk = false then (⟨n, s.fs⟩, Except.error "failed to create session")
  else if env.agentOk = false then (⟨n, s.fs⟩, Except.error "failed to run agent")
  else
    let response := env.response
    let memoryCommands := parseMemoryCommands response
    let fs1 :=
      if memoryCommands.isEmpty then s.fs
      else (BackupContext s.fs ("cycle_" ++ toString n) env.backupOk).1
    let ctx1 := applyCommands ctx memoryCommands n env.now
    let ctx2 := { ctx1 with metadata := { ctx1.metadata with totalCycles := n } }
    match SaveContext fs1 ctx2 env.saveOk env.now with
    | Except.error e => (⟨n, fs1⟩, Except.error ("failed to save context: " ++ e))
    | Except.ok fs2 =>
      (⟨n, { fs2 with log := fs2.log ++ [(n, memoryCommands.length)] }⟩, Except.ok ())

/-- Run a sequence of cycles, keeping the state of each. -/
def runN (s : ServiceState) (envs : List CycleEnv) : ServiceState :=
  match envs with
  | [] => s
  | e :: rest => runN (runCycle s e).1 rest

/-- The `total_cycles` value currently persisted in the context file (zero
when no parsable file exists). -/
def persistedTotal (fs : FS) : Nat :=
  match fs.contextFile with
  | FileState.stored c => c.metadata.totalCycles
  | _ => 0

/-- A context file state `LoadContext` accepts. -/
def loadOk : FileState → Bool
  | FileState.missing => true
  | FileState.stored _ => true
  | _ => false

/-- A fresh knowledge base: no context file has ever been written. -/
def freshState : ServiceState := ⟨0, ⟨FileState.missing, [], []⟩⟩

/-- `Service.Start` initialisation (part_004 lines 75-79): load the context
and resume the cycle counter from the persisted `total_cycles`. -/
def startService (fs : FS) (now : Nat) : Except String ServiceState :=
  (LoadContext fs.contextFile now).map (fun c => ⟨c.metadata.totalCycles, fs⟩)

/-- An environment in which every external collaborator of the cycle
succeeds (the response text and the backup outcome are unconstrained). -/
def envOk (env : CycleEnv) : Prop :=
  (∃ g, env.goals = Except.ok g) ∧ (∃ m, env.mission = Except.ok m)
    ∧ env.sessionOk = true ∧ env.agentOk = true ∧ env.saveOk = true

/-- `acquireLock` from part_004 lines 274-301: the marker holds a pid;
`alive` is the `Signal(0)` liveness probe; `writeOk` models the final
`os.WriteFile` of the new marker. Returns the marker state after the call
and the call's result. -/
def acquireLock (marker : Option Nat) (alive : Nat → Bool) (self : Nat) (writeOk : Bool) :
    Option Nat × Except String Unit :=
  match marker with
  | some oldPid =>
    if alive oldPid then
      (some oldPid, Except.error ("heartbeat already running with PID " ++ toString oldPid))
    else
      -- stale marker removed, then a fresh marker written
      if writeOk then (some self, Except.ok ())
      else (none, Except.error "failed to create PID file")
  | none =>
    if writeOk then (some self, Except.ok ())
    else (none, Except.error "failed to create PID file")

/-! ## Helper constants for concrete inputs -/

/-- Opening brace as a one-character string, for building JSON sample text. -/
def obS : String := String.singleton lbraceC

/-- Closing brace as a one-character string. -/
def cbS : String := String.singleton rbraceC

/-- A goal set with no goals. -/
def emptyGoals : Goals := ⟨[], ⟨1, 0⟩⟩

/-- Final metadata stamp a successful save leaves on the cycle's context:
`TotalCycles := cycleNumber` (part_004 line 203) and `UpdatedAt := now`
(context.go line 61). -/
def finalizeCtx (ctx : Context) (n now : Nat) : Context :=
  { ctx with metadata := { ctx.metadata with totalCycles := n, updatedAt := now } }

/-- Invariant tying the service counter to the persisted counter: the file
is loadable and its `total_cycles` equals the in-memory cycle counter. -/
def ServiceInv (s : ServiceState) : Prop :=
  loadOk s.fs.contextFile = true ∧ persistedTotal s.fs = s.cycleNumber

/-- Initial state for the C1 counterexample: a context file persisted with
`total_cycles = 0` and a service counter resumed from it. -/
def c1s0 : ServiceState := ⟨0, ⟨FileState.stored (createEmptyContext 0), [], []⟩⟩

/-- A cycle whose goals file fails to load (the cycle aborts). -/
def c1envFail : CycleEnv :=
  ⟨Except.error "corrupt goals file", Except.ok "", true, true, "", true, true, 3, "T"⟩

/-- A cycle in which every collaborator succeeds and the agent returns no
command block. -/
def c1envOk : CycleEnv :=
  ⟨Except.ok emptyGoals, Except.ok "", true, true, "", true, true, 4, "T"⟩

/-- Response whose only command block consists of a single command of
unknown kind: it decodes, but no command in it is valid. -/
def rAllInvalid : String :=
  "MEMORY_COMMANDS: [" ++ obS ++ "\"command\":\"bogus\"" ++ cbS ++ "]\n"

/-- Initial state for the C2 counterexample. -/
def c2s0 : ServiceState := ⟨0, ⟨FileState.stored (createEmptyContext 2), [], []⟩⟩

/-- Environment whose agent response is `rAllInvalid` and whose backup copy
succeeds. -/
def c2envInvalid : CycleEnv :=
  ⟨Except.ok emptyGoals, Except.ok "", true, true, rAllInvalid, true, true, 6, "T"⟩

/-- Response with one valid `add_observation` command. -/
def rOneValid : String :=
  "MEMORY_COMMANDS: [" ++ obS ++ "\"command\":\"add_observation\",\"data\":" ++ obS
    ++ "\"content\":\"A\"" ++ cbS ++ cbS ++ "]\n"

/-- Environment for the C2 witness: valid command, successful backup. -/
def c2wEnv : CycleEnv :=
  ⟨Except.ok emptyGoals, Except.ok "", true, true, rOneValid, true, true, 6, "T"⟩

/-- Initial state for the C8 analysis: a persisted context exists. -/
def c8s0 : ServiceState := ⟨0, ⟨FileState.stored (createEmptyContext 2), [], []⟩⟩

/-- Environment for C8: one valid command arrives, the backup copy FAILS,
the save succeeds. -/
def c8env : CycleEnv :=
  ⟨Except.ok emptyGoals, Except.ok "", true, true, rOneValid, false, true, 9, "T"⟩

/-- Response containing two marker-delimited command blocks (observation
"A" in the first, "B" in the second). -/
def rTwoBlocks : String :=
  "MEMORY_COMMANDS: [" ++ obS ++ "\"command\":\"add_observation\",\"data\":" ++ obS
    ++ "\"content\":\"A\"" ++ cbS ++ cbS ++ "]\nmid\nMEMORY_COMMANDS: ["
    ++ obS ++ "\"command\":\"add_observation\",\"data\":" ++ obS
    ++ "\"content\":\"B\"" ++ cbS ++ cbS ++ "]\n"

/-- Initial state for the C3 counterexample. -/
def c3s0 : ServiceState := ⟨0, ⟨FileState.stored (createEmptyContext 5), [], []⟩⟩

/-- Environment whose agent response carries two command blocks. -/
def c3env : CycleEnv :=
  ⟨Except.ok emptyGoals, Except.ok "", true, true, rTwoBlocks, true, true, 7, "T"⟩

/-- State for the C3 witness. -/
def c3ws : ServiceState := ⟨3, ⟨FileState.stored (createEmptyContext 1), [], []⟩⟩

/-- Environment for the C3 witness: a response with no command block. -/
def c3wEnv : CycleEnv :=
  ⟨Except.ok emptyGoals, Except.ok "", true, true, "researched the market today", true, true, 8, "T"⟩

/-- Context for the C5 witness. -/
def c5ctx : Context := createEmptyContext 0

/-- A valid observation command. -/
def c5good1 : MemoryCommand := ⟨"add_observation", "saw", [("content", JsonVal.str "first")]⟩

/-- Another valid observation command. -/
def c5good2 : MemoryCommand := ⟨"add_observation", "saw", [("content", JsonVal.str "second")]⟩

/-- An `add_lesson` whose required `content` field is a number, not a
string. -/
def c5bad : MemoryCommand := ⟨"add_lesson", "", [("content", JsonVal.num 42)]⟩

/-- Seven observations in insertion order. -/
def ctx7 : Context :=
  ⟨[⟨"one", 1, 1⟩, ⟨"two", 2, 1⟩, ⟨"three", 3, 2⟩, ⟨"four", 4, 2⟩,
    ⟨"five", 5, 3⟩, ⟨"six", 6, 3⟩, ⟨"seven", 7, 4⟩],
   [], [], [], ⟨"1.0", 0, 7, 4⟩⟩

/-- Probe that reports only pid 42 alive. -/
def probe42 : Nat → Bool := fun p => p == 42

/-- Probe that reports every process dead. -/
def probeDead : Nat → Bool := fun _ => false

/-- The JSON text of the C9 test command block. -/
def c9json : String :=
  "[" ++ obS ++ "\"command\":\"add_lesson\",\"data\":" ++ obS
    ++ "\"content\":\"X\",\"confidence\":\"high\"" ++ cbS ++ cbS ++ "]"

/-! ## Shared lemmas -/

/-- `BackupContext` only ever appends to the backup directory; the context
file itself is untouched. -/
theorem BackupContext_contextFile (fs : FS) (reason : String) (copyOk : Bool) :
    (BackupContext fs reason copyOk).1.contextFile = fs.contextFile := by
  unfold BackupContext
  rcases h : fs.contextFile with _ | _ | _ | c <;> simp [h] <;> split <;> simp [h]

/-- `BackupContext` leaves the activity log untouched. -/
theorem BackupContext_log (fs : FS) (reason : String) (copyOk : Bool) :
    (BackupContext fs reason copyOk).1.log = fs.log := by
  unfold BackupContext
  rcases h : fs.contextFile with _ | _ | _ | c <;> simp [h] <;> split <;> simp [h]

/-- A command `isValidCommand` rejects makes `ExecuteMemoryCommand` return
an error, for every context, cycle and clock. -/
theorem exec_error_of_invalid (ctx : Context) (cmd : MemoryCommand) (cycle now : Nat)
    (h : isValidCommand cmd = false) :
    ∃ e, ExecuteMemoryCommand ctx cmd cycle now = Except.error e := by
  unfold isValidCommand at h
  unfold ExecuteMemoryCommand
  split_ifs at h ⊢ <;> simp_all
  case _ =>
    rcases hc : jfieldGet cmd.data "content" with _ | v
    · simp
    · cases v <;> simp_all
  case _ =>
    rcases hc : jfieldGet cmd.data "content" with _ | v
    · simp
    · cases v <;> simp_all
  case _ =>
    rcases hc : jfieldGet cmd.data "content" with _ | v
    · simp
    · cases v <;> simp_all
  case _ =>
    rcases hn : jfieldGet cmd.data "name" with _ | v
    · simp
    · rcases hd : jfieldGet cmd.data "description" with _ | w
      · cases v <;> simp_all
      · cases v <;> cases w <;> simp_all

/-- A command `isValidCommand` accepts makes `ExecuteMemoryCommand` succeed. -/
theorem exec_ok_of_valid (ctx : Context) (cmd : MemoryCommand) (cycle now : Nat)
    (h : isValidCommand cmd = true) :
    ∃ ctx2, ExecuteMemoryCommand ctx cmd cycle now = Except.ok ctx2 := by
  unfold isValidCommand at h
  unfold ExecuteMemoryCommand
  split_ifs at h ⊢ <;> simp_all
  case _ =>
    rcases hc : jfieldGet cmd.data "content" with _ | v
    · simp_all
    · cases v <;> simp_all
  case _ =>
    rcases hc : jfieldGet cmd.data "content" with _ | v
    · simp_all
    · cases v <;> simp_all
  case _ =>
    rcases hc : jfieldGet cmd.data "content" with _ | v
    · simp_all
    · cases v <;> simp_all
  case _ =>
    rcases hn : jfieldGet cmd.data "name" with _ | v
    · simp_all
    · rcases hd : jfieldGet cmd.data "description" with _ | w
      · cases v <;> simp_all
      · cases v <;> cases w <;> simp_all

/-- Applying a concatenation of command lists is sequential application. -/
theorem applyCommands_append (ctx : Context) (a b : List MemoryCommand) (cycle now : Nat) :
    applyCommands ctx (a ++ b) cycle now
      = applyCommands (applyCommands ctx a cycle now) b cycle now := by
  induction a generalizing ctx with
  | nil => simp [applyCommands]
  | cons c rest ih =>
    simp only [List.cons_append, applyCommands]
    cases ExecuteMemoryCommand ctx c cycle now <;> simp [ih]

/-- Core bookkeeping of one cycle: the cycle counter always advances by one;
a successful cycle persists `total_cycles = cycleNumber + 1`; a failed cycle
leaves the context file untouched. -/
theorem runCycle_spec (s : ServiceState) (env : CycleEnv) :
    (runCycle s env).1.cycleNumber = s.cycleNumber + 1
      ∧ ((runCycle s env).2 = Except.ok ()
          → persistedTotal (runCycle s env).1.fs = s.cycleNumber + 1)
      ∧ (∀ e, (runCycle s env).2 = Except.error e
          → (runCycle s env).1.fs.contextFile = s.fs.contextFile) := by
  unfold runCycle
  rcases hL : LoadContext s.fs.contextFile env.now with e | ctx <;>
    rcases hg : env.goals with e2 | g <;>
      rcases hm : env.mission with e3 | m <;>
        by_cases hs : env.sessionOk = false <;>
          by_cases ha : env.agentOk = false <;>
            by_cases hsv : env.saveOk = true <;>
              simp_all [SaveContext, persistedTotal, BackupContext_contextFile]
  all_goals try split
  all_goals simp [BackupContext_contextFile]

/-- Full characterisation of a successful cycle: when the loads, the session,
the agent and the save all succeed, the cycle returns success, backs up
(only) when the parsed command list is non-empty, applies the commands to the
loaded context, stamps `total_cycles` with the new cycle number and persists
the result, and appends one log entry. -/
theorem runCycle_success_spec (s : ServiceState) (env : CycleEnv)
    (henv : envOk env) (hload : loadOk s.fs.contextFile = true) :
    ∃ c, LoadContext s.fs.contextFile env.now = Except.ok c
      ∧ runCycle s env =
        (⟨s.cycleNumber + 1,
          { contextFile := FileState.stored
              (finalizeCtx (applyCommands c (parseMemoryCommands env.response)
                (s.cycleNumber + 1) env.now) (s.cycleNumber + 1) env.now)
            backups := (if (parseMemoryCommands env.response).isEmpty then s.fs
                        else (BackupContext s.fs ("cycle_" ++ toString (s.cycleNumber + 1))
                                env.backupOk).1).backups
            log := s.fs.log
              ++ [(s.cycleNumber + 1, (parseMemoryCommands env.response).length)] }⟩,
         Except.ok ()) := by
  obtain ⟨⟨g, hg⟩, ⟨m, hm⟩, hs, ha, hsv⟩ := henv
  rcases hf : s.fs.contextFile with _ | _ | _ | c0
  case unreadable => simp [loadOk, hf] at hload
  case malformed => simp [loadOk, hf] at hload
  case missing =>
    refine ⟨createEmptyContext env.now, by simp [hf, LoadContext], ?_⟩
    unfold runCycle
    simp only [hf, LoadContext, hg, hm, hs, ha]
    by_cases hmt : (parseMemoryCommands env.response).isEmpty <;>
      simp [hmt, SaveContext, hsv, finalizeCtx, BackupContext_log, BackupContext_contextFile, hf]
  case stored =>
    refine ⟨c0, by simp [hf, LoadContext], ?_⟩
    unfold runCycle
    simp only [hf, LoadContext, hg, hm, hs, ha]
    by_cases hmt : (parseMemoryCommands env.response).isEmpty <;>
      simp [hmt, SaveContext, hsv, finalizeCtx, BackupContext_log, BackupContext_contextFile, hf]

/-- One all-collaborators-succeed cycle preserves `ServiceInv` and advances
both counters by one. -/
theorem runCycle_preserves_inv (s : ServiceState) (env : CycleEnv)
    (hi : ServiceInv s) (henv : envOk env) :
    (runCycle s env).2 = Except.ok () ∧ ServiceInv (runCycle s env).1
      ∧ (runCycle s env).1.cycleNumber = s.cycleNumber + 1 := by
  obtain ⟨c, _, heq⟩ := runCycle_success_spec s env henv hi.1
  rw [heq]
  exact ⟨rfl, ⟨rfl, rfl⟩, rfl⟩

/-- Over a run of all-succeeding cycles, the counters advance by the number
of cycles. -/
theorem runN_all_ok (envs : List CycleEnv) :
    ∀ s, ServiceInv s → (∀ e ∈ envs, envOk e)
      → ServiceInv (runN s envs)
        ∧ (runN s envs).cycleNumber = s.cycleNumber + envs.length := by
  induction envs with
  | nil => intro s hi _; exact ⟨hi, rfl⟩
  | cons e rest ih =>
    intro s hi hall
    have he : envOk e := hall e (List.mem_cons_self e rest)
    have hstep := runCycle_preserves_inv s e hi he
    have hrest := ih (runCycle s e).1 hstep.2.1
      (fun e2 he2 => hall e2 (List.mem_cons_of_mem e he2))
    refine ⟨hrest.1, ?_⟩
    simp only [runN, hrest.2, hstep.2.2, List.length_cons]
    omega

/-- C1 counterexample: starting from persisted `total_cycles = 0`, one failed
cycle followed by one completed cycle leaves `total_cycles = 2` — the single
completed cycle increased the persisted counter by 2, not by 1, because
`runCycle` increments `cycleNumber` before any work and never rolls it back
on failure (part_004 line 127), and the save writes `TotalCycles :=
cycleNumber` (line 203). -/
theorem c1_counterexample :
    persistedTotal c1s0.fs = 0
      ∧ (runCycle c1s0 c1envFail).2 = Except.error "failed to load goals: corrupt goals file"
      ∧ persistedTotal (runCycle c1s0 c1envFail).1.fs = 0
      ∧ (runCycle (runCycle c1s0 c1envFail).1 c1envOk).2 = Except.ok ()
      ∧ persistedTotal (runCycle (runCycle c1s0 c1envFail).1 c1envOk).1.fs = 2 :=
  ⟨rfl, rfl, rfl, rfl, rfl⟩

/-- C1 (amended): over a run from a fresh knowledge base in which every
cycle completes, the persisted `total_cycles` equals the number of cycles N;
in general a completed cycle sets the persisted counter to the count of
attempted cycles (completed plus failed) — an increase of 1 plus the number
of failed attempts since the last save — a failed cycle leaves it unchanged,
and whenever the in-memory counter dominates the persisted one (as at
startup) the persisted counter is monotonically non-decreasing. -/
theorem c1_total_cycles (envs : List CycleEnv) (hall : ∀ e ∈ envs, envOk e)
    (s : ServiceState) (env : CycleEnv)
    (hmono : persistedTotal s.fs ≤ s.cycleNumber) :
    (persistedTotal (runN freshState envs).fs = envs.length
      ∧ (runN freshState envs).cycleNumber = envs.length)
    ∧ ((runCycle s env).2 = Except.ok ()
        → persistedTotal (runCycle s env).1.fs = s.cycleNumber + 1)
    ∧ (∀ e2, (runCycle s env).2 = Except.error e2
        → persistedTotal (runCycle s env).1.fs = persistedTotal s.fs)
    ∧ persistedTotal s.fs ≤ persistedTotal (runCycle s env).1.fs := by
  have hfresh : ServiceInv freshState := ⟨rfl, rfl⟩
  have hN := runN_all_ok envs freshState hfresh hall
  have hspec := runCycle_spec s env
  refine ⟨⟨?_, ?_⟩, hspec.2.1, ?_, ?_⟩
  · rw [hN.1.2, hN.2]
    simp [freshState]
  · rw [hN.2]
    simp [freshState]
  · intro e2 he2
    have hpres := hspec.2.2 e2 he2
    unfold persistedTotal
    rw [hpres]
  · rcases hr : (runCycle s env).2 with e2 | u
    · have hpres := hspec.2.2 e2 hr
      unfold persistedTotal
      rw [hpres]
    · cases u
      have := hspec.2.1 hr
      omega

/-- C1 witness: one all-succeeding cycle from fresh persists
`total_cycles = 1`, and the persisted counter did not decrease. -/
theorem c1_witness :
    persistedTotal (runN freshState [c1envOk]).fs = 1
      ∧ persistedTotal freshState.fs ≤ persistedTotal (runCycle freshState c1envOk).1.fs := by
  have hall : ∀ e ∈ [c1envOk], envOk e := by
    intro e he
    simp only [List.mem_singleton] at he
    subst he
    exact ⟨⟨emptyGoals, rfl⟩, ⟨"", rfl⟩, rfl, rfl, rfl⟩
  have H := c1_total_cycles [c1envOk] hall freshState c1envOk (Nat.le_refl 0)
  exact ⟨H.1.1, H.2.2.2⟩

set_option maxRecDepth 40000 in
/-- C2 counterexample: a command block containing only an invalid command
(unknown kind) still produces a backup file, because `runCycle` backs up
whenever the decoded command list is non-empty (part_004 line 186) without
checking validity — contradicting the claim that a block with no valid
command produces zero backups. -/
theorem c2_counterexample :
    (parseMemoryCommands rAllInvalid).isEmpty = false
      ∧ (parseMemoryCommands rAllInvalid).all (fun c => !isValidCommand c) = true
      ∧ (runCycle c2s0 c2envInvalid).1.fs.backups.length = 1 :=
  ⟨rfl, rfl, rfl⟩

/-- C2 (amended): a backup is attempted exactly when the decoded command
list of the cycle is non-empty — whether or not any command in it is valid —
and a backup file appears exactly when, additionally, the context file
exists and the copy succeeds; the snapshot taken is the pre-mutation context
file, while the save that follows persists the mutated context. -/
theorem c2_backup_policy (s : ServiceState) (env : CycleEnv) (c : Context)
    (hstored : s.fs.contextFile = FileState.stored c) (henv : envOk env) :
    (runCycle s env).1.fs.backups =
      (if (parseMemoryCommands env.response).isEmpty = false ∧ env.backupOk = true
       then s.fs.backups ++ [("cycle_" ++ toString (s.cycleNumber + 1), FileState.stored c)]
       else s.fs.backups)
    ∧ (runCycle s env).1.fs.contextFile
        = FileState.stored (finalizeCtx (applyCommands c (parseMemoryCommands env.response)
            (s.cycleNumber + 1) env.now) (s.cycleNumber + 1) env.now) := by
  have hload : loadOk s.fs.contextFile = true := by simp [loadOk, hstored]
  obtain ⟨c2, hc2, heq⟩ := runCycle_success_spec s env henv hload
  rw [hstored] at hc2
  simp only [LoadContext, Except.ok.injEq] at hc2
  subst hc2
  rw [heq]
  refine ⟨?_, rfl⟩
  by_cases hmt : (parseMemoryCommands env.response).isEmpty
  · simp [hmt]
  · by_cases hbk : env.backupOk
    · simp [hmt, hbk, BackupContext, hstored]
    · simp [hmt, hbk, BackupContext, hstored]

/-- C2 witness: the amended backup policy at a concrete stored context and a
response carrying one valid command. -/
theorem c2_witness :
    (runCycle c2s0 c2wEnv).1.fs.backups =
      (if (parseMemoryCommands c2wEnv.response).isEmpty = false ∧ c2wEnv.backupOk = true
       then c2s0.fs.backups
         ++ [("cycle_" ++ toString (c2s0.cycleNumber + 1), FileState.stored (createEmptyContext 2))]
       else c2s0.fs.backups)
    ∧ (runCycle c2s0 c2wEnv).1.fs.contextFile
        = FileState.stored (finalizeCtx (applyCommands (createEmptyContext 2)
            (parseMemoryCommands c2wEnv.response) (c2s0.cycleNumber + 1) c2wEnv.now)
            (c2s0.cycleNumber + 1) c2wEnv.now) :=
  c2_backup_policy c2s0 c2wEnv (createEmptyContext 2) rfl
    ⟨⟨emptyGoals, rfl⟩, ⟨"", rfl⟩, rfl, rfl, rfl⟩

set_option maxRecDepth 40000 in
/-- C8: when the pre-mutation backup write fails, `runCycle` is supposed to
abort the mutating save (spec §7); instead part_004 line 190 discards
`BackupContext`'s error, so the cycle writes zero backups, overwrites the
context file with the mutated context, and still reports success. -/
theorem c8_backup_failure_ignored :
    (parseMemoryCommands rOneValid).isEmpty = false
      ∧ (BackupContext c8s0.fs "cycle_1" false).2 = Except.error "failed to write backup"
      ∧ (runCycle c8s0 c8env).2 = Except.ok ()
      ∧ (runCycle c8s0 c8env).1.fs.backups = []
      ∧ (runCycle c8s0 c8env).1.fs.contextFile
          = FileState.stored ⟨[⟨"A", 9, 1⟩], [], [], [], ⟨"1.0", 2, 9, 1⟩⟩ :=
  ⟨rfl, rfl, rfl, rfl, rfl⟩

set_option maxRecDepth 100000 in
/-- C3 counterexample: the response matches the block pattern twice, yet the
cycle applies the first block's mutation (the knowledge base gains
observation "A") instead of applying none — `FindStringSubmatch` takes the
first match, it does not reject multiple matches. -/
theorem c3_counterexample :
    countBlocks rTwoBlocks = 2
      ∧ (runCycle c3s0 c3env).2 = Except.ok ()
      ∧ (runCycle c3s0 c3env).1.fs.contextFile
          = FileState.stored ⟨[⟨"A", 7, 1⟩], [], [], [], ⟨"1.0", 5, 7, 1⟩⟩ :=
  ⟨rfl, rfl, rfl⟩

/-- C3 (amended): command extraction takes the FIRST marker-delimited block
(further blocks are ignored rather than invalidating the cycle); when no
block matches, no commands are parsed, no backup is made, the knowledge base
content is not mutated (only the cycle metadata is stamped), and the cycle
still reports success. -/
theorem c3_first_block_extraction (s : ServiceState) (env : CycleEnv)
    (henv : envOk env) (hload : loadOk s.fs.contextFile = true) :
    (∀ cap e, findFirstBlock env.response.data = some (cap, e)
        → parseMemoryCommands env.response
            = (match decodeCommands cap with
               | none => []
               | some commands => commands))
    ∧ (findFirstBlock env.response.data = none
        → parseMemoryCommands env.response = []
          ∧ (runCycle s env).2 = Except.ok ()
          ∧ (runCycle s env).1.fs.backups = s.fs.backups
          ∧ ∃ c, LoadContext s.fs.contextFile env.now = Except.ok c
              ∧ (runCycle s env).1.fs.contextFile
                  = FileState.stored (finalizeCtx c (s.cycleNumber + 1) env.now)) := by
  constructor
  · intro cap e h
    unfold parseMemoryCommands
    rw [h]
  · intro hn
    have hp : parseMemoryCommands env.response = [] := by
      unfold parseMemoryCommands
      rw [hn]
    obtain ⟨c, hc, heq⟩ := runCycle_success_spec s env henv hload
    rw [heq]
    refine ⟨hp, rfl, ?_, c, hc, ?_⟩
    · simp [hp]
    · simp [hp, applyCommands]

set_option maxRecDepth 40000 in
/-- C3 witness: the no-block branch of the amended claim at a concrete
response without a marker. -/
theorem c3_witness :
    parseMemoryCommands c3wEnv.response = []
      ∧ (runCycle c3ws c3wEnv).2 = Except.ok ()
      ∧ (runCycle c3ws c3wEnv).1.fs.backups = c3ws.fs.backups
      ∧ ∃ c, LoadContext c3ws.fs.contextFile c3wEnv.now = Except.ok c
          ∧ (runCycle c3ws c3wEnv).1.fs.contextFile
              = FileState.stored (finalizeCtx c (c3ws.cycleNumber + 1) c3wEnv.now) :=
  (c3_first_block_extraction c3ws c3wEnv
    ⟨⟨emptyGoals, rfl⟩, ⟨"", rfl⟩, rfl, rfl, rfl⟩ rfl).2 rfl

set_option maxRecDepth 40000 in
/-- C4 counterexample: two invocations of the prompt assembler with
identical knowledge base, goal set, mission text and cycle number but
different clock readings produce different prompt text — the Go function
embeds `time.Now()` in the `**Time**` line, so it is not a pure function of
the four claimed inputs. -/
theorem c4_counterexample :
    BuildUserPrompt (createEmptyContext 0) emptyGoals "mission" 1 "2025-01-01 00:00:00 UTC"
      ≠ BuildUserPrompt (createEmptyContext 0) emptyGoals "mission" 1 "2025-01-01 00:00:01 UTC" := by
  decide

/-- C4 (amended): the prompt assembler is a deterministic function of the
knowledge base, the goal set, the cycle number and the current clock
reading; the mission text parameter has no effect on the output, so two
invocations agreeing on those four values yield identical text even with
different missions. -/
theorem c4_prompt_determinism (ctx : Context) (goals : Goals) (m1 m2 : String)
    (cycleNumber : Nat) (nowStr : String) :
    BuildUserPrompt ctx goals m1 cycleNumber nowStr
      = BuildUserPrompt ctx goals m2 cycleNumber nowStr := rfl

/-- C5: a mutation command rejected by validation (unknown kind, or a
required field missing or of the wrong type) makes `ExecuteMemoryCommand`
return an error leaving the knowledge base unchanged, its presence anywhere
in a block does not change what the surrounding commands produce, and
command failures never fail the cycle (a cycle with successful
load/session/agent/save steps reports success whatever the commands). -/
theorem c5_invalid_command_skipped (ctx : Context) (pre post : List MemoryCommand)
    (c : MemoryCommand) (cyc now : Nat) (h : isValidCommand c = false) :
    (∃ e, ExecuteMemoryCommand ctx c cyc now = Except.error e)
    ∧ applyCommands ctx (pre ++ c :: post) cyc now = applyCommands ctx (pre ++ post) cyc now
    ∧ (∀ s env, envOk env → loadOk s.fs.contextFile = true
        → (runCycle s env).2 = Except.ok ()) := by
  refine ⟨exec_error_of_invalid ctx c cyc now h, ?_, ?_⟩
  · rw [applyCommands_append, applyCommands_append]
    obtain ⟨e, he⟩ := exec_error_of_invalid (applyCommands ctx pre cyc now) c cyc now h
    simp only [applyCommands, he]
  · intro s env henv hload
    obtain ⟨c2, _, heq⟩ := runCycle_success_spec s env henv hload
    rw [heq]

/-- C5 witness: the wrong-typed lesson is invalid, errors, and dropping it
from the block leaves the applied result unchanged. -/
theorem c5_witness :
    isValidCommand c5bad = false
      ∧ (∃ e, ExecuteMemoryCommand c5ctx c5bad 2 9 = Except.error e)
      ∧ applyCommands c5ctx ([c5good1] ++ c5bad :: [c5good2]) 2 9
          = applyCommands c5ctx ([c5good1] ++ [c5good2]) 2 9 := by
  have H := c5_invalid_command_skipped c5ctx [c5good1] [c5good2] c5bad 2 9 rfl
  exact ⟨rfl, H.1, H.2.1⟩

/-- C6: with seven stored observations the assembled prompt's observation
section renders exactly the observations from the third onward — the last
five, in stored order, omitting the first two — while the knowledge base
itself keeps all seven (`BuildUserPrompt` reads and never rewrites it); in
general the section renders `obs.drop (obs.length - 5)`, a suffix of at most
five entries. -/
theorem c6_prompt_last_five (ctx : Context) (goals : Goals) (mission : String)
    (cyc : Nat) (nowStr : String) (h : ctx.observations.length = 7) :
    BuildUserPrompt ctx goals mission cyc nowStr
      = promptHeader cyc nowStr ++ missionSection ++ goalsSection goals ++ knowledgeHeader
        ++ ("### Recent Observations\n\n"
            ++ String.join ((ctx.observations.drop 2).map obsLine) ++ "\n")
        ++ lessonsSection ctx.lessons ++ hypothesesSection ctx.hypotheses
        ++ strategiesSection ctx.strategies ++ thisCycleSection
    ∧ (ctx.observations.drop 2).length = 5
    ∧ ctx.observations.drop 2 <:+ ctx.observations := by
  have hne : ctx.observations.isEmpty = false := by
    cases hx : ctx.observations
    · rw [hx] at h
      simp at h
    · simp [hx]
  refine ⟨?_, ?_, ⟨ctx.observations.take 2, List.take_append_drop 2 ctx.observations⟩⟩
  · unfold BuildUserPrompt observationsSection
    rw [h, hne]
    norm_num
  · simp [h]

/-- C6 witness: the last-five rendering at a concrete seven-observation
knowledge base. -/
theorem c6_witness :
    ctx7.observations.length = 7
      ∧ (BuildUserPrompt ctx7 emptyGoals "" 9 "T"
          = promptHeader 9 "T" ++ missionSection ++ goalsSection emptyGoals ++ knowledgeHeader
            ++ ("### Recent Observations\n\n"
                ++ String.join ((ctx7.observations.drop 2).map obsLine) ++ "\n")
            ++ lessonsSection ctx7.lessons ++ hypothesesSection ctx7.hypotheses
            ++ strategiesSection ctx7.strategies ++ thisCycleSection)
      ∧ (ctx7.observations.drop 2).length = 5 := by
  have H := c6_prompt_last_five ctx7 emptyGoals "" 9 "T" rfl
  exact ⟨rfl, H.1, H.2.1⟩

/-- C7: `acquireLock` against an existing marker — when the probe reports
the recorded process alive, acquisition fails with the already-running error
and the marker is left in place; when the probe reports it dead, the stale
marker is replaced by a marker holding the caller's own identity and
acquisition succeeds. -/
theorem c7_lock_liveness (oldPid self : Nat) (alive : Nat → Bool) :
    (alive oldPid = true
      → acquireLock (some oldPid) alive self true
          = (some oldPid,
             Except.error ("heartbeat already running with PID " ++ toString oldPid)))
    ∧ (alive oldPid = false
      → acquireLock (some oldPid) alive self true = (some self, Except.ok ())) := by
  constructor <;> intro h <;> simp [acquireLock, h]

/-- C7 witness: both branches of the lock behaviour at concrete pids. -/
theorem c7_witness :
    acquireLock (some 42) probe42 99 true
        = (some 42, Except.error ("heartbeat already running with PID " ++ toString 42))
      ∧ acquireLock (some 42) probeDead 99 true = (some 99, Except.ok ()) :=
  ⟨(c7_lock_liveness 42 99 probe42).1 rfl, (c7_lock_liveness 42 99 probeDead).2 rfl⟩

set_option maxRecDepth 40000 in
/-- C9: the block `[{"command":"add_lesson","data":{"content":"X",
"confidence":"high"}}]` decodes to one command, and applying that command to
an empty knowledge base at cycle 3 succeeds and yields exactly one Lesson
with content "X", confidence "high" and cycle 3, the other sequences staying
empty. -/
theorem c9_add_lesson (meta : ContextMeta) (now : Nat) :
    decodeCommands c9json.data
        = some [⟨"add_lesson", "", [("content", JsonVal.str "X"),
                                    ("confidence", JsonVal.str "high")]⟩]
      ∧ ExecuteMemoryCommand ⟨[], [], [], [], meta⟩
          ⟨"add_lesson", "", [("content", JsonVal.str "X"),
                              ("confidence", JsonVal.str "high")]⟩ 3 now
        = Except.ok ⟨[], [⟨"X", now, 3, "high"⟩], [], [], meta⟩ :=
  ⟨rfl, rfl⟩

/-- C10: loading the knowledge base when the persisted file does not exist
returns a fresh empty context — all four sequences empty, version "1.0",
`total_cycles` 0, creation and update stamps at the current clock — with no
error; an existing-but-unreadable file and an unparsable file each yield an
error, and an existing parsable file loads as stored. -/
theorem c10_load_missing_gives_empty (now : Nat) (c : Context) :
    LoadContext FileState.missing now = Except.ok (createEmptyContext now)
      ∧ createEmptyContext now = ⟨[], [], [], [], ⟨"1.0", now, now, 0⟩⟩
      ∧ LoadContext FileState.unreadable now = Except.error "failed to read context file"
      ∧ LoadContext FileState.malformed now = Except.error "failed to parse context JSON"
      ∧ LoadContext (FileState.stored c) now = Except.ok c :=
  ⟨rfl, rfl, rfl, rfl, rfl⟩

